import Mathlib

/-!
Shallow embedding of the sync-it file store (storage.go, handlers.go).

The store state is the in-memory index (`files`), the blob directory
(`disk`, a finite map from identifier to byte content), and the content
of the persisted metadata file (`metadataDisk`).  I/O outcomes that the
Go code observes through `error` returns (os.Create, io.Copy,
os.WriteFile, os.Remove, os.Stat) are injected through explicit
environment records, so every control path of the source is represented.
Timestamps are integers (nanoseconds, as in Go's time package);
`time.Time.After` is strict `<` on these integers.
-/

namespace SyncIt

abbrev Byte := Nat

/-- The blob directory: an association list from blob filename (the record
identifier) to the byte content stored in that file. -/
abbrev Disk := List (String × List Byte)

/-- Embeds `FileMetadata` of storage.go (ID, Name, Size, UploadedAt, ExpiresAt). -/
structure FileMetadata where
  id : String
  name : String
  size : Int
  uploadedAt : Int
  expiresAt : Int
deriving DecidableEq, Repr

/-- Embeds the observable state of `FileStorage` of storage.go: the in-memory
index `files`, the blob directory, and the persisted metadata.json content. -/
structure FileStorage where
  files : List FileMetadata
  disk : Disk
  metadataDisk : List FileMetadata
deriving DecidableEq, Repr

/-- Look up a blob file on disk by name. -/
def diskGet (d : Disk) (id : String) : Option (List Byte) :=
  match d.find? (fun p => p.1 == id) with
  | some p => some p.2
  | none => none

/-- Remove a blob file from disk (os.Remove when it succeeds). -/
def diskRemove (d : Disk) (id : String) : Disk :=
  d.filter (fun p => p.1 != id)

/-- Create or truncate-and-write a blob file (os.Create followed by writes). -/
def diskSet (d : Disk) (id : String) (content : List Byte) : Disk :=
  (id, content) :: diskRemove d id

theorem diskGet_diskRemove_self (d : Disk) (id : String) :
    diskGet (diskRemove d id) id = none := by
  have key : (d.filter (fun p => p.1 != id)).find? (fun p => p.1 == id) = none := by
    apply List.find?_eq_none.mpr
    intro x hx
    have hmem := List.of_mem_filter hx
    simp only [bne_iff_ne, ne_eq] at hmem
    simp [hmem]
  unfold diskGet diskRemove
  rw [key]

theorem diskGet_diskRemove_ne (d : Disk) (id x : String) (h : x ≠ id) :
    diskGet (diskRemove d id) x = diskGet d x := by
  have hpred : (fun a : String × List Byte => decide ((a.1 != id) = true ∧ (a.1 == x) = true)) =
      (fun p : String × List Byte => p.1 == x) := by
    funext p
    by_cases hx : p.1 = x
    · subst hx
      simp [h]
    · simp [hx]
  unfold diskGet diskRemove
  rw [List.find?_filter, hpred]

theorem diskGet_diskSet_self (d : Disk) (id : String) (c : List Byte) :
    diskGet (diskSet d id c) id = some c := by
  simp [diskGet, diskSet, List.find?]

theorem diskRemove_diskSet_self (d : Disk) (id : String) (c : List Byte) :
    diskRemove (diskSet d id c) id = diskRemove d id := by
  have hpred : (fun p : String × List Byte => (p.1 != id) && (p.1 != id)) =
      (fun p : String × List Byte => p.1 != id) := by
    funext p
    rw [Bool.and_self]
  unfold diskSet diskRemove
  rw [List.filter_cons]
  simp only [bne_self_eq_false, Bool.false_eq_true, if_false]
  rw [List.filter_filter, hpred]

theorem diskRemove_eq_self_of_not_present (d : Disk) (id : String)
    (h : diskGet d id = none) : diskRemove d id = d := by
  have hfind : d.find? (fun p => p.1 == id) = none := by
    unfold diskGet at h
    cases hf : d.find? (fun p => p.1 == id) with
    | some q => rw [hf] at h; exact absurd h (by simp)
    | none => rfl
  unfold diskRemove
  rw [List.filter_eq_self]
  intro p hp
  have := List.find?_eq_none.mp hfind p hp
  simpa using this

/-- One nanosecond-count hour, Go's `time.Hour`. -/
def nanosPerHour : Int := 3600000000000

/-- Outcome of an `os.Remove` call as the Go code distinguishes them:
success, a not-exist error (`os.IsNotExist`), or any other error. -/
inductive RemoveOutcome where
  | ok
  | errNotExist
  | errOther
deriving DecidableEq, Repr

/-- Effect of `os.Remove` on the blob directory: only a successful removal
changes the disk; a failed removal leaves the file (if any) in place. -/
def applyRemove (d : Disk) (id : String) (o : RemoveOutcome) : Disk :=
  match o with
  | RemoveOutcome.ok => diskRemove d id
  | _ => d

/-- Injected I/O outcomes for one `SaveFile` call: the identifier produced by
`generateID`, the value of `time.Now`, whether `os.Create`, `io.Copy`
(with the bytes written before a mid-stream failure) and the metadata
`os.WriteFile` succeed, and the outcome of the rollback `os.Remove` of the
just-written blob (the code discards that outcome, so a failed rollback
removal leaves the blob on disk). -/
structure SaveEnv where
  newId : String
  now : Int
  createOk : Bool
  copyFail : Bool
  writtenBytes : List Byte
  persistOk : Bool
  removeOutcome : RemoveOutcome

/-- Injected I/O outcomes for one `DeleteFile` call. -/
structure DeleteEnv where
  removeOutcome : RemoveOutcome
  persistOk : Bool

/-- Injected I/O outcomes for one `ClearAllFiles` call (one `os.Remove`
outcome per blob filename). -/
structure ClearAllEnv where
  removeOutcome : String → RemoveOutcome
  persistOk : Bool

/-- Injected I/O outcomes for one `DeleteExpiredFiles` call, including the
single `time.Now` read at the start of the sweep. -/
structure ExpireEnv where
  now : Int
  removeOutcome : String → RemoveOutcome
  persistOk : Bool

/-- Two's-complement wraparound to a signed 64-bit integer, the semantics of
Go's `int64` arithmetic: the constants are `2 ^ 63` and `2 ^ 64`. -/
def wrap64 (n : Int) : Int :=
  (n + 9223372036854775808) % 18446744073709551616 - 9223372036854775808

/-- The record `SaveFile` constructs after a successful blob write:
`uploadedAt = now` and `expiresAt = now + duration`, where the duration is
`time.Duration(expirationHours) * time.Hour` computed in wrapping `int64`
nanoseconds (it overflows for `expirationHours ≥ 2562048`); the size is the
byte count reported by `io.Copy`. -/
def mkMeta (filename : String) (content : List Byte) (expirationHours : Int)
    (env : SaveEnv) : FileMetadata :=
  { id := env.newId
    name := filename
    size := (content.length : Int)
    uploadedAt := env.now
    expiresAt := env.now + wrap64 (expirationHours * nanosPerHour) }

/-- Embeds `SaveFile` of storage.go: create the blob file, stream the content
into it (on a copy failure, `os.Remove` the partly written blob best-effort,
its error discarded), build the record, append it to the index, and persist
the metadata; on a persist failure `os.Remove` the blob (again best-effort)
and drop the just-appended record. -/
def SaveFile (fs : FileStorage) (filename : String) (content : List Byte)
    (expirationHours : Int) (env : SaveEnv) : FileStorage × Except String FileMetadata :=
  if env.createOk then
    if env.copyFail then
      let d1 := diskSet fs.disk env.newId env.writtenBytes
      ({ fs with disk := applyRemove d1 env.newId env.removeOutcome },
       Except.error "failed to write file")
    else
      let d1 := diskSet fs.disk env.newId content
      let meta : FileMetadata := mkMeta filename content expirationHours env
      let files1 := fs.files ++ [meta]
      if env.persistOk then
        ({ files := files1, disk := d1, metadataDisk := files1 }, Except.ok meta)
      else
        ({ files := files1.dropLast, disk := applyRemove d1 env.newId env.removeOutcome,
           metadataDisk := fs.metadataDisk }, Except.error "failed to write metadata")
  else
    (fs, Except.error "failed to create file")

/-- The ordering used by `ListFiles` of storage.go: the comparator
`result[i].UploadedAt.After(result[j].UploadedAt)` sorts most recent first,
so the sorted list is non-increasing in `uploadedAt`. -/
def moreRecent (a b : FileMetadata) : Prop := b.uploadedAt ≤ a.uploadedAt

instance : DecidableRel moreRecent :=
  fun a b => inferInstanceAs (Decidable (b.uploadedAt ≤ a.uploadedAt))

instance : IsTotal FileMetadata moreRecent :=
  ⟨fun a b => le_total b.uploadedAt a.uploadedAt⟩

instance : IsTrans FileMetadata moreRecent :=
  ⟨fun _ _ _ h1 h2 => le_trans h2 h1⟩

/-- Embeds `ListFiles` of storage.go: copy the index and sort the copy by
`uploadedAt` descending (Go's `sort.Slice` guarantees only sortedness with
respect to the comparator; the model realises it as an insertion sort over
the same ordering).  The store state is returned to make explicit that the
call does not mutate it. -/
def ListFiles (fs : FileStorage) : FileStorage × List FileMetadata :=
  (fs, List.insertionSort moreRecent fs.files)

/-- Embeds `GetFile` of storage.go: scan the index for the first record with
the given id (not found if none), then `os.Stat` the blob path, failing with
a not-found error when the blob is missing on disk.  The returned path is the
blob filename, i.e. the identifier.  The store state is returned to make
explicit that the call does not mutate it. -/
def GetFile (fs : FileStorage) (id : String) :
    FileStorage × Except String (FileMetadata × String) :=
  match fs.files.find? (fun m => m.id == id) with
  | some meta =>
      match diskGet fs.disk id with
      | some _ => (fs, Except.ok (meta, id))
      | none => (fs, Except.error "file not found on disk")
  | none => (fs, Except.error "file not found")

/-- Embeds `DeleteFile` of storage.go: find the first index entry with the
given id (not found if none), remove the blob — an `os.Remove` error other
than not-exist aborts the call — then remove the entry at that position and
persist the metadata. -/
def DeleteFile (fs : FileStorage) (id : String) (env : DeleteEnv) :
    FileStorage × Except String Unit :=
  match fs.files.find? (fun m => m.id == id) with
  | none => (fs, Except.error "file not found")
  | some _ =>
      if env.removeOutcome = RemoveOutcome.errOther then
        (fs, Except.error "failed to delete file")
      else
        let d1 := applyRemove fs.disk id env.removeOutcome
        let files1 := fs.files.eraseP (fun m => m.id == id)
        if env.persistOk then
          ({ files := files1, disk := d1, metadataDisk := files1 }, Except.ok ())
        else
          ({ files := files1, disk := d1, metadataDisk := fs.metadataDisk },
           Except.error "failed to write metadata")

/-- The blob-removal loop of `ClearAllFiles`: `os.Remove` every listed
record's blob, ignoring the outcome of each call. -/
def removeBlobs (outcome : String → RemoveOutcome) (d : Disk)
    (l : List FileMetadata) : Disk :=
  l.foldl (fun acc meta => applyRemove acc meta.id (outcome meta.id)) d

/-- Embeds `ClearAllFiles` of storage.go: best-effort remove every blob
referenced by the index (removal errors are ignored), reset the index to
empty, and persist. -/
def ClearAllFiles (fs : FileStorage) (env : ClearAllEnv) :
    FileStorage × Except String Unit :=
  let d1 := removeBlobs env.removeOutcome fs.disk fs.files
  if env.persistOk then
    ({ files := [], disk := d1, metadataDisk := [] }, Except.ok ())
  else
    ({ files := [], disk := d1, metadataDisk := fs.metadataDisk },
     Except.error "failed to write metadata")

/-- One iteration of the sweep loop in `DeleteExpiredFiles`: a record with
`now.After(expiresAt)`, i.e. `expiresAt < now`, has its blob removed
(best-effort, outcome ignored); otherwise it is appended to the active
list. -/
def expireStep (env : ExpireEnv) (acc : Disk × List FileMetadata)
    (meta : FileMetadata) : Disk × List FileMetadata :=
  if meta.expiresAt < env.now then
    (applyRemove acc.1 meta.id (env.removeOutcome meta.id), acc.2)
  else
    (acc.1, acc.2 ++ [meta])

/-- Embeds `DeleteExpiredFiles` of storage.go: read `time.Now` once, sweep
the index removing expired blobs and collecting active records, install the
active records as the new index, and persist. -/
def DeleteExpiredFiles (fs : FileStorage) (env : ExpireEnv) :
    FileStorage × Except String Unit :=
  let res := fs.files.foldl (expireStep env) (fs.disk, [])
  if env.persistOk then
    ({ files := res.2, disk := res.1, metadataDisk := res.2 }, Except.ok ())
  else
    ({ files := res.2, disk := res.1, metadataDisk := fs.metadataDisk },
     Except.error "failed to write metadata")

/-- Embeds the TTL selection of `handleUpload` of handlers.go: default 24
hours; a caller-supplied `expirationHours` is used only when it is present,
parses as an integer, and is strictly positive.  `none` stands for an absent
or non-numeric form value. -/
def chooseExpirationHours (parsed : Option Int) : Int :=
  match parsed with
  | some e => if 0 < e then e else 24
  | none => 24

/-- Whether an `Except` result is an error. -/
def isErr {α : Type} : Except String α → Bool
  | Except.ok _ => false
  | Except.error _ => true

/-- A concrete record used to exercise the operations: expires at time 5. -/
def sampleRecord : FileMetadata :=
  { id := "a", name := "a.txt", size := 1, uploadedAt := 0, expiresAt := 5 }

/-- A second concrete record, uploaded later than `sampleRecord`. -/
def sampleRecordB : FileMetadata :=
  { id := "b", name := "b.txt", size := 2, uploadedAt := 3, expiresAt := 9 }

/-- The empty store: fresh directory, no records, no blobs. -/
def emptyStore : FileStorage := { files := [], disk := [], metadataDisk := [] }

/-- A consistent one-record store. -/
def sampleStore : FileStorage :=
  { files := [sampleRecord], disk := [("a", [1])], metadataDisk := [sampleRecord] }

/-- A consistent two-record store. -/
def sampleStore2 : FileStorage :=
  { files := [sampleRecord, sampleRecordB], disk := [("a", [1]), ("b", [2, 3])],
    metadataDisk := [sampleRecord, sampleRecordB] }

/-- Removal outcomes where every `os.Remove` succeeds. -/
def outcomesOk : String → RemoveOutcome := fun _ => RemoveOutcome.ok

/-- Removal outcomes where every `os.Remove` fails with a non-not-exist error. -/
def outcomesOther : String → RemoveOutcome := fun _ => RemoveOutcome.errOther

/-- A sweep environment whose cutoff equals `sampleRecord.expiresAt` exactly. -/
def boundaryExpireEnv : ExpireEnv :=
  { now := 5, removeOutcome := outcomesOk, persistOk := true }

/-- A store whose index lists `sampleRecord` but whose blob directory is
empty: the dangling-entry situation `GetFile` defends against. -/
def danglingStore : FileStorage :=
  { files := [sampleRecord], disk := [], metadataDisk := [sampleRecord] }

/-- A save environment where `io.Copy` fails mid-stream after one byte and
the rollback `os.Remove` of the partial blob also fails. -/
def badSaveEnv : SaveEnv :=
  { newId := "x", now := 5, createOk := true, copyFail := true,
    writtenBytes := [1], persistOk := true,
    removeOutcome := RemoveOutcome.errOther }

/-- A fully succeeding save environment at time 0, used to store a record
whose requested TTL overflows the int64 duration. -/
def overflowSaveEnv : SaveEnv :=
  { newId := "x", now := 0, createOk := true, copyFail := false,
    writtenBytes := [], persistOk := true, removeOutcome := RemoveOutcome.ok }

theorem expire_foldl_snd (env : ExpireEnv) :
    ∀ (l : List FileMetadata) (d : Disk) (acc : List FileMetadata),
      (l.foldl (expireStep env) (d, acc)).2 =
        acc ++ l.filter (fun m => decide (env.now ≤ m.expiresAt)) := by
  intro l
  induction l with
  | nil => intro d acc; simp
  | cons a t ih =>
      intro d acc
      by_cases h : a.expiresAt < env.now
      · have hp : ¬ env.now ≤ a.expiresAt := not_le.mpr h
        simp only [List.foldl_cons, expireStep, if_pos h, List.filter_cons]
        rw [ih]
        simp [hp]
      · have hp : env.now ≤ a.expiresAt := not_lt.mp h
        simp only [List.foldl_cons, expireStep, if_neg h, List.filter_cons]
        rw [ih]
        simp [hp]

theorem expire_foldl_fst (env : ExpireEnv) :
    ∀ (l : List FileMetadata) (d : Disk) (acc : List FileMetadata),
      (l.foldl (expireStep env) (d, acc)).1 =
        removeBlobs env.removeOutcome d
          (l.filter (fun m => decide (m.expiresAt < env.now))) := by
  intro l
  induction l with
  | nil => intro d acc; simp [removeBlobs]
  | cons a t ih =>
      intro d acc
      by_cases h : a.expiresAt < env.now
      · simp only [List.foldl_cons, expireStep, if_pos h, List.filter_cons]
        rw [ih]
        simp [h, removeBlobs]
      · simp only [List.foldl_cons, expireStep, if_neg h, List.filter_cons]
        rw [ih]
        simp [h]

theorem diskGet_applyRemove_of_none (d : Disk) (id x : String) (o : RemoveOutcome)
    (h : diskGet d x = none) : diskGet (applyRemove d id o) x = none := by
  cases o with
  | ok =>
      by_cases hx : x = id
      · subst hx; exact diskGet_diskRemove_self d x
      · rw [applyRemove, diskGet_diskRemove_ne d id x hx]; exact h
  | errNotExist => exact h
  | errOther => exact h

theorem diskGet_removeBlobs_of_none (o : String → RemoveOutcome) (x : String) :
    ∀ (l : List FileMetadata) (d : Disk),
      diskGet d x = none → diskGet (removeBlobs o d l) x = none := by
  intro l
  induction l with
  | nil => intro d h; exact h
  | cons a t ih =>
      intro d h
      exact ih _ (diskGet_applyRemove_of_none d a.id x (o a.id) h)

theorem diskGet_removeBlobs_of_ok (o : String → RemoveOutcome) (x : String)
    (hok : o x = RemoveOutcome.ok) :
    ∀ (l : List FileMetadata) (d : Disk),
      (∃ m ∈ l, m.id = x) → diskGet (removeBlobs o d l) x = none := by
  intro l
  induction l with
  | nil => intro d h; exact absurd h (by simp)
  | cons a t ih =>
      intro d h
      by_cases ha : a.id = x
      · have : diskGet (applyRemove d a.id (o a.id)) x = none := by
          rw [ha, hok, applyRemove]
          exact diskGet_diskRemove_self d x
        exact diskGet_removeBlobs_of_none o x t _ this
      · rcases h with ⟨m, hm, hmx⟩
        rcases List.mem_cons.mp hm with rfl | hmt
        · exact absurd hmx ha
        · exact ih _ ⟨m, hmt, hmx⟩

theorem diskGet_applyRemove_ne (d : Disk) (id x : String) (o : RemoveOutcome)
    (h : id ≠ x) : diskGet (applyRemove d id o) x = diskGet d x := by
  cases o with
  | ok => exact diskGet_diskRemove_ne d id x (Ne.symm h)
  | errNotExist => rfl
  | errOther => rfl

theorem diskGet_removeBlobs_of_not_mem (o : String → RemoveOutcome) (x : String) :
    ∀ (l : List FileMetadata) (d : Disk),
      (∀ m ∈ l, m.id ≠ x) → diskGet (removeBlobs o d l) x = diskGet d x := by
  intro l
  induction l with
  | nil => intro d _; rfl
  | cons a t ih =>
      intro d h
      have ha : a.id ≠ x := h a (List.mem_cons_self a t)
      have ht : ∀ m ∈ t, m.id ≠ x := fun m hm => h m (List.mem_cons_of_mem a hm)
      rw [removeBlobs, List.foldl_cons]
      have := ih (applyRemove d a.id (o a.id)) ht
      rw [removeBlobs] at this
      rw [this, diskGet_applyRemove_ne d a.id x (o a.id) ha]

theorem not_mem_map_id_eraseP (id : String) :
    ∀ l : List FileMetadata, (l.map FileMetadata.id).Nodup →
      id ∉ (l.eraseP (fun m => m.id == id)).map FileMetadata.id := by
  intro l
  induction l with
  | nil => intro _; simp [List.eraseP]
  | cons a t ih =>
      intro hnd
      rw [List.map_cons, List.nodup_cons] at hnd
      by_cases ha : a.id = id
      · rw [List.eraseP_cons_of_pos (by simp [ha])]
        rw [ha] at hnd
        exact hnd.1
      · rw [List.eraseP_cons_of_neg (by simp [ha])]
        rw [List.map_cons]
        intro hmem
        rcases List.mem_cons.mp hmem with heq | hmem'
        · exact ha heq.symm
        · exact ih hnd.2 hmem'

theorem saveFile_ok_elim (fs : FileStorage) (filename : String) (content : List Byte)
    (hours : Int) (env : SaveEnv) (meta : FileMetadata)
    (hok : (SaveFile fs filename content hours env).2 = Except.ok meta) :
    env.createOk = true ∧ env.copyFail = false ∧ env.persistOk = true ∧
    meta = mkMeta filename content hours env ∧
    (SaveFile fs filename content hours env).1 =
      { files := fs.files ++ [meta], disk := diskSet fs.disk env.newId content,
        metadataDisk := fs.files ++ [meta] } := by
  unfold SaveFile at hok
  by_cases hc : env.createOk = true
  · by_cases hcf : env.copyFail = true
    · simp [hc, hcf] at hok
    · by_cases hp : env.persistOk = true
      · have hcf' : env.copyFail = false := by simpa using hcf
        simp only [hc, hcf', hp, if_true, Bool.false_eq_true, if_false] at hok
        have hmeta := ((Except.ok.injEq _ _).mp hok).symm
        refine ⟨hc, hcf', hp, hmeta, ?_⟩
        simp only [SaveFile, hc, hcf', hp, if_true, Bool.false_eq_true, if_false]
        rw [hmeta]
      · simp [hc, hcf, hp] at hok
  · simp [hc] at hok

theorem deleteExpired_files_eq (fs : FileStorage) (env : ExpireEnv) :
    (DeleteExpiredFiles fs env).1.files =
      fs.files.filter (fun m => decide (env.now ≤ m.expiresAt)) := by
  unfold DeleteExpiredFiles
  by_cases hp : env.persistOk = true
  · simp only [hp, if_true]
    rw [expire_foldl_snd]
    simp
  · simp only [hp, if_false]
    rw [expire_foldl_snd]
    simp

theorem deleteExpired_disk_eq (fs : FileStorage) (env : ExpireEnv) :
    (DeleteExpiredFiles fs env).1.disk =
      removeBlobs env.removeOutcome fs.disk
        (fs.files.filter (fun m => decide (m.expiresAt < env.now))) := by
  unfold DeleteExpiredFiles
  have h := expire_foldl_fst env fs.files fs.disk []
  by_cases hp : env.persistOk = true <;> simp [hp, h]

theorem deleteExpired_metadataDisk_eq (fs : FileStorage) (env : ExpireEnv) :
    (DeleteExpiredFiles fs env).1.metadataDisk =
      if env.persistOk then (DeleteExpiredFiles fs env).1.files else fs.metadataDisk := by
  unfold DeleteExpiredFiles
  by_cases hp : env.persistOk = true <;> simp [hp]

theorem deleteExpired_result_eq (fs : FileStorage) (env : ExpireEnv) :
    (DeleteExpiredFiles fs env).2 =
      if env.persistOk then Except.ok () else Except.error "failed to write metadata" := by
  unfold DeleteExpiredFiles
  by_cases hp : env.persistOk = true <;> simp [hp]

/-- C1 counterexample: a save whose copy fails mid-stream and whose rollback
`os.Remove` also fails leaves the partially written blob on disk — the call
fails, yet the store state does not equal its state before the call,
contradicting the unconditional atomicity claim. -/
theorem saveFile_rollback_failure_counterexample :
    isErr (SaveFile emptyStore "a.txt" [1, 2] 24 badSaveEnv).2 = true ∧
    diskGet (SaveFile emptyStore "a.txt" [1, 2] 24 badSaveEnv).1.disk "x" = some [1] ∧
    ¬ (SaveFile emptyStore "a.txt" [1, 2] 24 badSaveEnv).1 = emptyStore := by
  refine ⟨rfl, rfl, ?_⟩
  decide

/-- C1 (amended): Atomicity of failed Save — whenever `SaveFile` fails, no
record is added: the in-memory index, its `ListFiles` view and the persisted
metadata are unchanged.  The rollback `os.Remove` of the just-written blob is
best-effort (its error is discarded): whenever it succeeds — and always on
the create-failure path — no blob for the freshly generated identifier
remains on disk and the store state equals its state before the call; if the
rollback removal itself fails, a partial blob may remain. -/
theorem saveFile_failed_atomic (fs : FileStorage) (filename : String)
    (content : List Byte) (hours : Int) (env : SaveEnv)
    (hfresh : diskGet fs.disk env.newId = none)
    (hfail : isErr (SaveFile fs filename content hours env).2 = true) :
    (SaveFile fs filename content hours env).1.files = fs.files ∧
    (SaveFile fs filename content hours env).1.metadataDisk = fs.metadataDisk ∧
    (env.newId ∉ fs.files.map FileMetadata.id →
      ∀ m ∈ (ListFiles (SaveFile fs filename content hours env).1).2,
        m.id ≠ env.newId) ∧
    (env.removeOutcome = RemoveOutcome.ok →
      (SaveFile fs filename content hours env).1 = fs ∧
      diskGet (SaveFile fs filename content hours env).1.disk env.newId = none) := by
  have hfl : (SaveFile fs filename content hours env).1.files = fs.files := by
    unfold SaveFile
    by_cases hc : env.createOk = true
    · by_cases hcf : env.copyFail = true
      · simp [hc, hcf]
      · by_cases hp : env.persistOk = true
        · simp [SaveFile, hc, hcf, hp, isErr] at hfail
        · simp [hc, hcf, hp, List.dropLast_concat]
    · simp [hc]
  have hmd : (SaveFile fs filename content hours env).1.metadataDisk =
      fs.metadataDisk := by
    unfold SaveFile
    by_cases hc : env.createOk = true
    · by_cases hcf : env.copyFail = true
      · simp [hc, hcf]
      · by_cases hp : env.persistOk = true
        · simp [SaveFile, hc, hcf, hp, isErr] at hfail
        · simp [hc, hcf, hp]
    · simp [hc]
  have hrest : env.removeOutcome = RemoveOutcome.ok →
      (SaveFile fs filename content hours env).1 = fs := by
    intro ho
    unfold SaveFile
    by_cases hc : env.createOk = true
    · by_cases hcf : env.copyFail = true
      · simp only [hc, hcf, if_true, ho, applyRemove]
        rw [diskRemove_diskSet_self,
          diskRemove_eq_self_of_not_present fs.disk env.newId hfresh]
      · by_cases hp : env.persistOk = true
        · simp [SaveFile, hc, hcf, hp, isErr] at hfail
        · simp only [hc, hcf, hp, if_true, Bool.false_eq_true, if_false, ho, applyRemove]
          rw [List.dropLast_concat, diskRemove_diskSet_self,
            diskRemove_eq_self_of_not_present fs.disk env.newId hfresh]
    · simp [hc]
  refine ⟨hfl, hmd, ?_, fun ho => ⟨hrest ho, by rw [hrest ho]; exact hfresh⟩⟩
  intro hnot m hm heq
  simp only [ListFiles] at hm
  rw [hfl] at hm
  have hmem : m ∈ fs.files := (List.perm_insertionSort moreRecent fs.files).mem_iff.mp hm
  exact hnot (heq ▸ List.mem_map_of_mem FileMetadata.id hmem)

/-- Witness for the amended C1 at a concrete store with a forced
metadata-persist failure and a succeeding rollback removal. -/
theorem saveFile_failed_atomic_witness :
    (SaveFile emptyStore "a.txt" [1, 2] 24
        ⟨"x", 5, true, false, [], false, RemoveOutcome.ok⟩).1.files = emptyStore.files ∧
    (SaveFile emptyStore "a.txt" [1, 2] 24
        ⟨"x", 5, true, false, [], false, RemoveOutcome.ok⟩).1.metadataDisk =
      emptyStore.metadataDisk ∧
    ("x" ∉ emptyStore.files.map FileMetadata.id →
      ∀ m ∈ (ListFiles (SaveFile emptyStore "a.txt" [1, 2] 24
          ⟨"x", 5, true, false, [], false, RemoveOutcome.ok⟩).1).2, m.id ≠ "x") ∧
    ((⟨"x", 5, true, false, [], false, RemoveOutcome.ok⟩ : SaveEnv).removeOutcome =
        RemoveOutcome.ok →
      (SaveFile emptyStore "a.txt" [1, 2] 24
        ⟨"x", 5, true, false, [], false, RemoveOutcome.ok⟩).1 = emptyStore ∧
      diskGet (SaveFile emptyStore "a.txt" [1, 2] 24
        ⟨"x", 5, true, false, [], false, RemoveOutcome.ok⟩).1.disk "x" = none) :=
  saveFile_failed_atomic emptyStore "a.txt" [1, 2] 24
    ⟨"x", 5, true, false, [], false, RemoveOutcome.ok⟩ (by rfl) (by rfl)

/-- C7: Save/Get round-trip — a successful `SaveFile` with a fresh identifier
is followed by a successful `GetFile` on that identifier returning the saved
record (same name, size equal to the number of bytes written) and a path at
which the blob content equals the original bytes. -/
theorem saveFile_getFile_roundtrip (fs : FileStorage) (filename : String)
    (content : List Byte) (hours : Int) (env : SaveEnv) (meta : FileMetadata)
    (hfresh : ∀ m ∈ fs.files, m.id ≠ env.newId)
    (hok : (SaveFile fs filename content hours env).2 = Except.ok meta) :
    meta.name = filename ∧ meta.size = (content.length : Int) ∧
    (GetFile (SaveFile fs filename content hours env).1 env.newId).2 =
      Except.ok (meta, env.newId) ∧
    diskGet (SaveFile fs filename content hours env).1.disk env.newId = some content := by
  obtain ⟨hc, hcf, hp, hmeta, hstate⟩ :=
    saveFile_ok_elim fs filename content hours env meta hok
  subst hmeta
  refine ⟨rfl, rfl, ?_, ?_⟩
  · rw [hstate]
    have h1 : (fs.files ++ [mkMeta filename content hours env]).find?
          (fun m => m.id == env.newId) = some (mkMeta filename content hours env) := by
      rw [List.find?_append, List.find?_eq_none.mpr (fun x hx => by simp [hfresh x hx])]
      simp [mkMeta]
    have h2 : diskGet (diskSet fs.disk env.newId content) env.newId = some content :=
      diskGet_diskSet_self fs.disk env.newId content
    simp only [GetFile, h1, h2]
  · rw [hstate]
    exact diskGet_diskSet_self fs.disk env.newId content

/-- Witness for C7: a concrete save into the empty store, followed by a get. -/
theorem saveFile_getFile_roundtrip_witness :
    (mkMeta "a.txt" [7, 8] 2 ⟨"x", 5, true, false, [], true, RemoveOutcome.ok⟩).name = "a.txt" ∧
    (mkMeta "a.txt" [7, 8] 2 ⟨"x", 5, true, false, [], true, RemoveOutcome.ok⟩).size =
      ((([7, 8] : List Byte).length : Nat) : Int) ∧
    (GetFile (SaveFile emptyStore "a.txt" [7, 8] 2 ⟨"x", 5, true, false, [], true, RemoveOutcome.ok⟩).1 "x").2 =
      Except.ok (mkMeta "a.txt" [7, 8] 2 ⟨"x", 5, true, false, [], true, RemoveOutcome.ok⟩, "x") ∧
    diskGet (SaveFile emptyStore "a.txt" [7, 8] 2 ⟨"x", 5, true, false, [], true, RemoveOutcome.ok⟩).1.disk "x" =
      some [7, 8] :=
  saveFile_getFile_roundtrip emptyStore "a.txt" [7, 8] 2 ⟨"x", 5, true, false, [], true, RemoveOutcome.ok⟩
    (mkMeta "a.txt" [7, 8] 2 ⟨"x", 5, true, false, [], true, RemoveOutcome.ok⟩)
    (by intro m hm; exact absurd hm (by simp [emptyStore])) (by rfl)

/-- C4: Expiry after upload — code bug.  The handler accepts any strictly
positive parsed `expirationHours` (2562048 included), and `SaveFile`
computes the duration `expirationHours * time.Hour` in wrapping int64
nanoseconds, which overflows to a negative duration for hours ≥ 2562048:
the successfully stored record then has `expiresAt < uploadedAt`,
contradicting the claimed invariant `expiresAt > uploadedAt`.  This theorem
evaluates the code at the failing input. -/
theorem expiry_overflow_code_bug :
    chooseExpirationHours (some 2562048) = 2562048 ∧
    (SaveFile emptyStore "big.txt" [] 2562048 overflowSaveEnv).2 =
      Except.ok (mkMeta "big.txt" [] 2562048 overflowSaveEnv) ∧
    (mkMeta "big.txt" [] 2562048 overflowSaveEnv).uploadedAt = 0 ∧
    (mkMeta "big.txt" [] 2562048 overflowSaveEnv).expiresAt =
      -9223371273709551616 ∧
    (mkMeta "big.txt" [] 2562048 overflowSaveEnv).expiresAt <
      (mkMeta "big.txt" [] 2562048 overflowSaveEnv).uploadedAt := by
  refine ⟨by decide, rfl, by decide, by decide, by decide⟩

theorem listFiles_head_of_strict_max (fs : FileStorage) (m : FileMetadata)
    (hm : m ∈ fs.files)
    (hmax : ∀ m' ∈ fs.files, m' = m ∨ m'.uploadedAt < m.uploadedAt) :
    (ListFiles fs).2.head? = some m := by
  have hperm := List.perm_insertionSort moreRecent fs.files
  have hsorted : List.Sorted moreRecent (List.insertionSort moreRecent fs.files) :=
    List.sorted_insertionSort moreRecent fs.files
  cases hl : List.insertionSort moreRecent fs.files with
  | nil =>
      have : m ∈ List.insertionSort moreRecent fs.files := hperm.mem_iff.mpr hm
      rw [hl] at this
      exact absurd this (List.not_mem_nil m)
  | cons h t =>
      have hhead_mem : h ∈ fs.files := by
        have : h ∈ List.insertionSort moreRecent fs.files := by
          rw [hl]; exact List.mem_cons_self h t
        exact hperm.mem_iff.mp this
      have hm_in : m ∈ h :: t := by
        have : m ∈ List.insertionSort moreRecent fs.files := hperm.mem_iff.mpr hm
        rw [hl] at this
        exact this
      have hsort' : List.Sorted moreRecent (h :: t) := hl ▸ hsorted
      have hrel : ∀ x ∈ t, moreRecent h x := (List.sorted_cons.mp hsort').1
      rcases hmax h hhead_mem with rfl | hlt
      · simp [ListFiles, hl]
      · rcases List.mem_cons.mp hm_in with rfl | hmt
        · exact absurd hlt (lt_irrefl _)
        · exact absurd hlt (not_lt.mpr (hrel m hmt))

/-- C5: List snapshot and ordering — `ListFiles` leaves the store unchanged,
returns a permutation (a copy) of the index sorted by `uploadedAt`
descending, and after Save(A) then Save(B), where B's upload time is later
than A's and than every pre-existing record's, the first element of the
returned list is B's record. -/
theorem listFiles_snapshot_sorted :
    (∀ fs : FileStorage, (ListFiles fs).1 = fs) ∧
    (∀ fs : FileStorage, (ListFiles fs).2.Perm fs.files) ∧
    (∀ fs : FileStorage, List.Sorted moreRecent (ListFiles fs).2) ∧
    (∀ (fs : FileStorage) (fnA fnB : String) (cA cB : List Byte) (hA hB : Int)
        (envA envB : SaveEnv) (mA mB : FileMetadata),
        (SaveFile fs fnA cA hA envA).2 = Except.ok mA →
        (SaveFile (SaveFile fs fnA cA hA envA).1 fnB cB hB envB).2 = Except.ok mB →
        envA.now < envB.now →
        (∀ m ∈ fs.files, m.uploadedAt < envB.now) →
        (ListFiles (SaveFile (SaveFile fs fnA cA hA envA).1 fnB cB hB envB).1).2.head? =
          some mB) := by
  refine ⟨fun fs => rfl, fun fs => List.perm_insertionSort moreRecent fs.files,
    fun fs => List.sorted_insertionSort moreRecent fs.files, ?_⟩
  intro fs fnA fnB cA cB hA hB envA envB mA mB hokA hokB hAB hfsB
  obtain ⟨_, _, _, hmetaA, hstateA⟩ := saveFile_ok_elim fs fnA cA hA envA mA hokA
  obtain ⟨_, _, _, hmetaB, hstateB⟩ :=
    saveFile_ok_elim (SaveFile fs fnA cA hA envA).1 fnB cB hB envB mB hokB
  apply listFiles_head_of_strict_max
  · rw [hstateB, hstateA]
    simp
  · rw [hstateB, hstateA]
    intro m' hm'
    simp only [List.mem_append, List.mem_singleton] at hm'
    rcases hm' with (hm' | rfl) | rfl
    · right
      rw [hmetaB]
      exact hfsB m' hm'
    · right
      rw [hmetaB, hmetaA]
      exact hAB
    · left; rfl

/-- Witness for C5's Save(A)-then-Save(B) scenario at concrete inputs. -/
theorem listFiles_snapshot_sorted_witness :
    (ListFiles (SaveFile (SaveFile emptyStore "a.txt" [9] 24
        ⟨"idA", 1, true, false, [], true, RemoveOutcome.ok⟩).1 "b.txt" [4, 6] 24
        ⟨"idB", 2, true, false, [], true, RemoveOutcome.ok⟩).1).2.head? =
      some (mkMeta "b.txt" [4, 6] 24 ⟨"idB", 2, true, false, [], true, RemoveOutcome.ok⟩) :=
  listFiles_snapshot_sorted.2.2.2 emptyStore "a.txt" "b.txt" [9] [4, 6] 24 24
    ⟨"idA", 1, true, false, [], true, RemoveOutcome.ok⟩ ⟨"idB", 2, true, false, [], true, RemoveOutcome.ok⟩
    (mkMeta "a.txt" [9] 24 ⟨"idA", 1, true, false, [], true, RemoveOutcome.ok⟩)
    (mkMeta "b.txt" [4, 6] 24 ⟨"idB", 2, true, false, [], true, RemoveOutcome.ok⟩)
    (by rfl) (by rfl) (by norm_num)
    (by intro m hm; exact absurd hm (by simp [emptyStore]))

/-- C6: Delete raises-iff and postcondition — `DeleteFile` fails with the
not-found error exactly when the identifier is absent from the index, and a
successful `DeleteFile` leaves the record removed from the index, the new
index persisted, the blob absent from disk, and a subsequent `GetFile`
failing with not-found.  Identifiers are assumed unique in the index, and a
not-exist removal outcome is assumed to occur only when the blob is indeed
absent. -/
theorem deleteFile_notfound_iff_post (fs : FileStorage) (id : String) (env : DeleteEnv)
    (hnd : (fs.files.map FileMetadata.id).Nodup)
    (henv : env.removeOutcome = RemoveOutcome.errNotExist → diskGet fs.disk id = none) :
    (((DeleteFile fs id env).2 = Except.error "file not found") ↔
      id ∉ fs.files.map FileMetadata.id) ∧
    ((DeleteFile fs id env).2 = Except.ok () →
      id ∉ (DeleteFile fs id env).1.files.map FileMetadata.id ∧
      (DeleteFile fs id env).1.metadataDisk = (DeleteFile fs id env).1.files ∧
      diskGet (DeleteFile fs id env).1.disk id = none ∧
      (GetFile (DeleteFile fs id env).1 id).2 = Except.error "file not found") := by
  cases hf : fs.files.find? (fun m => m.id == id) with
  | none =>
      have hres : DeleteFile fs id env = (fs, Except.error "file not found") := by
        unfold DeleteFile; rw [hf]
      have hnotmem : id ∉ fs.files.map FileMetadata.id := by
        intro hmem
        obtain ⟨a, ha, haid⟩ := List.mem_map.mp hmem
        exact List.find?_eq_none.mp hf a ha (by simpa using haid)
      rw [hres]
      exact ⟨⟨fun _ => hnotmem, fun _ => rfl⟩, fun h => absurd h (by simp)⟩
  | some m0 =>
      have hm0mem : m0 ∈ fs.files := List.mem_of_find?_eq_some hf
      have hm0id : m0.id = id := by simpa using List.find?_some hf
      have hpresent : id ∈ fs.files.map FileMetadata.id :=
        List.mem_map.mpr ⟨m0, hm0mem, hm0id⟩
      by_cases ho : env.removeOutcome = RemoveOutcome.errOther
      · have hres : DeleteFile fs id env = (fs, Except.error "failed to delete file") := by
          unfold DeleteFile; rw [hf]; simp [ho]
        rw [hres]
        exact ⟨⟨fun h => absurd h (by simp), fun h => absurd hpresent h⟩,
               fun h => absurd h (by simp)⟩
      · by_cases hp : env.persistOk = true
        · have hres : DeleteFile fs id env =
              ({ files := fs.files.eraseP (fun m => m.id == id),
                 disk := applyRemove fs.disk id env.removeOutcome,
                 metadataDisk := fs.files.eraseP (fun m => m.id == id) },
               Except.ok ()) := by
            unfold DeleteFile; rw [hf]; simp [ho, hp]
          have hgone : id ∉ (fs.files.eraseP (fun m => m.id == id)).map FileMetadata.id :=
            not_mem_map_id_eraseP id fs.files hnd
          rw [hres]
          refine ⟨⟨fun h => absurd h (by simp), fun h => absurd hpresent h⟩, fun _ => ?_⟩
          refine ⟨hgone, rfl, ?_, ?_⟩
          · cases houtcome : env.removeOutcome with
            | ok => exact diskGet_diskRemove_self fs.disk id
            | errNotExist => exact henv houtcome
            | errOther => exact absurd houtcome ho
          · have hfindnone : (fs.files.eraseP (fun m => m.id == id)).find?
                (fun m => m.id == id) = none := by
              apply List.find?_eq_none.mpr
              intro x hx hxid
              exact hgone (List.mem_map.mpr ⟨x, hx, by simpa using hxid⟩)
            simp only [GetFile, hfindnone]
        · have hres : DeleteFile fs id env =
              ({ files := fs.files.eraseP (fun m => m.id == id),
                 disk := applyRemove fs.disk id env.removeOutcome,
                 metadataDisk := fs.metadataDisk },
               Except.error "failed to write metadata") := by
            unfold DeleteFile; rw [hf]; simp [ho, hp]
          rw [hres]
          exact ⟨⟨fun h => absurd h (by simp), fun h => absurd hpresent h⟩,
                 fun h => absurd h (by simp)⟩

/-- Witness for C6: deleting the only record of a concrete store. -/
theorem deleteFile_notfound_iff_post_witness :
    (((DeleteFile sampleStore "a" ⟨RemoveOutcome.ok, true⟩).2 =
        Except.error "file not found") ↔
      "a" ∉ sampleStore.files.map FileMetadata.id) ∧
    ((DeleteFile sampleStore "a" ⟨RemoveOutcome.ok, true⟩).2 = Except.ok () →
      "a" ∉ (DeleteFile sampleStore "a" ⟨RemoveOutcome.ok, true⟩).1.files.map
        FileMetadata.id ∧
      (DeleteFile sampleStore "a" ⟨RemoveOutcome.ok, true⟩).1.metadataDisk =
        (DeleteFile sampleStore "a" ⟨RemoveOutcome.ok, true⟩).1.files ∧
      diskGet (DeleteFile sampleStore "a" ⟨RemoveOutcome.ok, true⟩).1.disk "a" = none ∧
      (GetFile (DeleteFile sampleStore "a" ⟨RemoveOutcome.ok, true⟩).1 "a").2 =
        Except.error "file not found") :=
  deleteFile_notfound_iff_post sampleStore "a" ⟨RemoveOutcome.ok, true⟩
    (by decide) (by decide)

theorem clearAll_files_eq (fs : FileStorage) (env : ClearAllEnv) :
    (ClearAllFiles fs env).1.files = [] := by
  unfold ClearAllFiles
  by_cases hp : env.persistOk = true <;> simp [hp]

theorem clearAll_disk_eq (fs : FileStorage) (env : ClearAllEnv) :
    (ClearAllFiles fs env).1.disk = removeBlobs env.removeOutcome fs.disk fs.files := by
  unfold ClearAllFiles
  by_cases hp : env.persistOk = true <;> simp [hp]

theorem clearAll_metadataDisk_eq (fs : FileStorage) (env : ClearAllEnv) :
    (ClearAllFiles fs env).1.metadataDisk =
      if env.persistOk then [] else fs.metadataDisk := by
  unfold ClearAllFiles
  by_cases hp : env.persistOk = true <;> simp [hp]

theorem clearAll_result_eq (fs : FileStorage) (env : ClearAllEnv) :
    (ClearAllFiles fs env).2 =
      if env.persistOk then Except.ok () else Except.error "failed to write metadata" := by
  unfold ClearAllFiles
  by_cases hp : env.persistOk = true <;> simp [hp]

/-- C8: ClearAll idempotence — after `ClearAllFiles` the in-memory index is
empty (and persisted empty when the metadata write succeeds), so a second
`ClearAllFiles` also leaves `ListFiles` empty, removes no blobs (the blob
directory is untouched by the second call), and succeeds when its metadata
write succeeds. -/
theorem clearAll_idempotent (fs : FileStorage) (env1 env2 : ClearAllEnv) :
    (ClearAllFiles fs env1).1.files = [] ∧
    (ListFiles (ClearAllFiles fs env1).1).2 = [] ∧
    (env1.persistOk = true →
      (ClearAllFiles fs env1).2 = Except.ok () ∧
      (ClearAllFiles fs env1).1.metadataDisk = []) ∧
    (ClearAllFiles (ClearAllFiles fs env1).1 env2).1.files = [] ∧
    (ListFiles (ClearAllFiles (ClearAllFiles fs env1).1 env2).1).2 = [] ∧
    (ClearAllFiles (ClearAllFiles fs env1).1 env2).1.disk =
      (ClearAllFiles fs env1).1.disk ∧
    (env2.persistOk = true →
      (ClearAllFiles (ClearAllFiles fs env1).1 env2).2 = Except.ok () ∧
      (ClearAllFiles (ClearAllFiles fs env1).1 env2).1.metadataDisk = []) := by
  refine ⟨clearAll_files_eq fs env1, ?_, ?_, clearAll_files_eq _ env2, ?_, ?_, ?_⟩
  · simp [ListFiles, clearAll_files_eq fs env1]
  · intro hp
    rw [clearAll_result_eq, clearAll_metadataDisk_eq, hp]
    exact ⟨rfl, rfl⟩
  · simp [ListFiles, clearAll_files_eq]
  · rw [clearAll_disk_eq _ env2, clearAll_files_eq fs env1]
    rfl
  · intro hp
    rw [clearAll_result_eq, clearAll_metadataDisk_eq, hp]
    exact ⟨rfl, rfl⟩

/-- Witness for C8: clearing a concrete two-record store twice. -/
theorem clearAll_idempotent_witness :
    (ClearAllFiles sampleStore2 ⟨outcomesOk, true⟩).1.files = [] ∧
    (ListFiles (ClearAllFiles sampleStore2 ⟨outcomesOk, true⟩).1).2 = [] ∧
    ((⟨outcomesOk, true⟩ : ClearAllEnv).persistOk = true →
      (ClearAllFiles sampleStore2 ⟨outcomesOk, true⟩).2 = Except.ok () ∧
      (ClearAllFiles sampleStore2 ⟨outcomesOk, true⟩).1.metadataDisk = []) ∧
    (ClearAllFiles (ClearAllFiles sampleStore2 ⟨outcomesOk, true⟩).1
      ⟨outcomesOk, true⟩).1.files = [] ∧
    (ListFiles (ClearAllFiles (ClearAllFiles sampleStore2 ⟨outcomesOk, true⟩).1
      ⟨outcomesOk, true⟩).1).2 = [] ∧
    (ClearAllFiles (ClearAllFiles sampleStore2 ⟨outcomesOk, true⟩).1
        ⟨outcomesOk, true⟩).1.disk =
      (ClearAllFiles sampleStore2 ⟨outcomesOk, true⟩).1.disk ∧
    ((⟨outcomesOk, true⟩ : ClearAllEnv).persistOk = true →
      (ClearAllFiles (ClearAllFiles sampleStore2 ⟨outcomesOk, true⟩).1
        ⟨outcomesOk, true⟩).2 = Except.ok () ∧
      (ClearAllFiles (ClearAllFiles sampleStore2 ⟨outcomesOk, true⟩).1
        ⟨outcomesOk, true⟩).1.metadataDisk = []) :=
  clearAll_idempotent sampleStore2 ⟨outcomesOk, true⟩ ⟨outcomesOk, true⟩

/-- C9: Destruction paths are not atomic on persist failure — when the
metadata write fails, `ClearAllFiles` and `DeleteExpiredFiles` return the
persistence error, yet the in-memory index has already been replaced (empty,
resp. reduced to the active records), the affected blobs have already been
removed, and the persisted metadata file is left stale. -/
theorem destruction_not_atomic_on_persist_failure (fs : FileStorage)
    (envC : ClearAllEnv) (envE : ExpireEnv)
    (hpC : envC.persistOk = false) (hpE : envE.persistOk = false) :
    ((ClearAllFiles fs envC).2 = Except.error "failed to write metadata" ∧
     (ClearAllFiles fs envC).1.files = [] ∧
     (ClearAllFiles fs envC).1.metadataDisk = fs.metadataDisk ∧
     ((∀ s, envC.removeOutcome s = RemoveOutcome.ok) →
       ∀ m ∈ fs.files, diskGet (ClearAllFiles fs envC).1.disk m.id = none)) ∧
    ((DeleteExpiredFiles fs envE).2 = Except.error "failed to write metadata" ∧
     (DeleteExpiredFiles fs envE).1.files =
       fs.files.filter (fun m => decide (envE.now ≤ m.expiresAt)) ∧
     (DeleteExpiredFiles fs envE).1.metadataDisk = fs.metadataDisk ∧
     ((∀ s, envE.removeOutcome s = RemoveOutcome.ok) →
       ∀ m ∈ fs.files, m.expiresAt < envE.now →
         diskGet (DeleteExpiredFiles fs envE).1.disk m.id = none)) := by
  refine ⟨⟨?_, clearAll_files_eq fs envC, ?_, ?_⟩, ⟨?_, deleteExpired_files_eq fs envE, ?_, ?_⟩⟩
  · rw [clearAll_result_eq, hpC]
    rfl
  · rw [clearAll_metadataDisk_eq, hpC]
    rfl
  · intro hok m hm
    rw [clearAll_disk_eq]
    exact diskGet_removeBlobs_of_ok envC.removeOutcome m.id (hok m.id) fs.files fs.disk
      ⟨m, hm, rfl⟩
  · rw [deleteExpired_result_eq, hpE]
    rfl
  · rw [deleteExpired_metadataDisk_eq, hpE]
    rfl
  · intro hok m hm hexp
    rw [deleteExpired_disk_eq]
    refine diskGet_removeBlobs_of_ok envE.removeOutcome m.id (hok m.id) _ fs.disk
      ⟨m, ?_, rfl⟩
    exact List.mem_filter.mpr ⟨hm, by simpa using hexp⟩

/-- Witness for C9: a failed persist during a sweep over a concrete store
whose only record is already expired. -/
theorem destruction_not_atomic_witness :
    ((ClearAllFiles sampleStore ⟨outcomesOk, false⟩).2 =
        Except.error "failed to write metadata" ∧
     (ClearAllFiles sampleStore ⟨outcomesOk, false⟩).1.files = [] ∧
     (ClearAllFiles sampleStore ⟨outcomesOk, false⟩).1.metadataDisk =
        sampleStore.metadataDisk ∧
     ((∀ s, (⟨outcomesOk, false⟩ : ClearAllEnv).removeOutcome s = RemoveOutcome.ok) →
       ∀ m ∈ sampleStore.files,
         diskGet (ClearAllFiles sampleStore ⟨outcomesOk, false⟩).1.disk m.id = none)) ∧
    ((DeleteExpiredFiles sampleStore ⟨9, outcomesOk, false⟩).2 =
        Except.error "failed to write metadata" ∧
     (DeleteExpiredFiles sampleStore ⟨9, outcomesOk, false⟩).1.files =
       sampleStore.files.filter (fun m => decide ((9 : Int) ≤ m.expiresAt)) ∧
     (DeleteExpiredFiles sampleStore ⟨9, outcomesOk, false⟩).1.metadataDisk =
        sampleStore.metadataDisk ∧
     ((∀ s, (⟨9, outcomesOk, false⟩ : ExpireEnv).removeOutcome s = RemoveOutcome.ok) →
       ∀ m ∈ sampleStore.files, m.expiresAt < (9 : Int) →
         diskGet (DeleteExpiredFiles sampleStore ⟨9, outcomesOk, false⟩).1.disk m.id =
           none)) :=
  destruction_not_atomic_on_persist_failure sampleStore ⟨outcomesOk, false⟩
    ⟨9, outcomesOk, false⟩ (by rfl) (by rfl)

/-- C10: Read operations never mutate state — `GetFile` and `ListFiles`
return the store unchanged, and when `GetFile` hits an index entry whose
blob is missing on disk it fails with the on-disk not-found error while
leaving the dangling entry in place, so a repeated `GetFile` fails
identically. -/
theorem reads_do_not_mutate :
    (∀ (fs : FileStorage) (id : String), (GetFile fs id).1 = fs) ∧
    (∀ fs : FileStorage, (ListFiles fs).1 = fs) ∧
    (∀ (fs : FileStorage) (id : String),
      id ∈ fs.files.map FileMetadata.id →
      diskGet fs.disk id = none →
      (GetFile fs id).2 = Except.error "file not found on disk" ∧
      GetFile ((GetFile fs id).1) id = GetFile fs id) := by
  refine ⟨?_, fun fs => rfl, ?_⟩
  · intro fs id
    unfold GetFile
    cases hf : fs.files.find? (fun m => m.id == id) with
    | none => rfl
    | some m => cases hd : diskGet fs.disk id <;> rfl
  · intro fs id hmem hnone
    obtain ⟨a, ha, haid⟩ := List.mem_map.mp hmem
    have hsome : ∃ m0, fs.files.find? (fun m => m.id == id) = some m0 := by
      cases hf : fs.files.find? (fun m => m.id == id) with
      | none => exact absurd (by simpa using haid) (List.find?_eq_none.mp hf a ha)
      | some m0 => exact ⟨m0, rfl⟩
    obtain ⟨m0, hf⟩ := hsome
    have hres : GetFile fs id = (fs, Except.error "file not found on disk") := by
      unfold GetFile
      rw [hf, hnone]
    constructor
    · rw [hres]
    · show GetFile (GetFile fs id).1 id = GetFile fs id
      rw [hres]
      exact hres

/-- Witness for C10's dangling-entry case at a concrete store. -/
theorem reads_do_not_mutate_witness :
    (GetFile danglingStore "a").2 = Except.error "file not found on disk" ∧
    GetFile ((GetFile danglingStore "a").1) "a" = GetFile danglingStore "a" :=
  reads_do_not_mutate.2.2 danglingStore "a" (by decide) (by rfl)

/-- C2 counterexample: with the cutoff equal to the record's `expiresAt`
(`now = expiresAt = 5`), the code retains the record and its blob — the
sweep uses `now.After(expiresAt)`, so equality is NOT treated as expired,
contradicting the claim that records with `expiresAt ≤ now` are removed. -/
theorem deleteExpired_boundary_counterexample :
    sampleRecord ∈ (DeleteExpiredFiles sampleStore boundaryExpireEnv).1.files ∧
    sampleRecord.expiresAt ≤ boundaryExpireEnv.now ∧
    ¬ boundaryExpireEnv.now < sampleRecord.expiresAt ∧
    diskGet (DeleteExpiredFiles sampleStore boundaryExpireEnv).1.disk
      sampleRecord.id = some [1] := by
  refine ⟨?_, ?_, ?_, ?_⟩ <;> decide

/-- C2 (amended): Expiry partition — `DeleteExpiredFiles` computes one cutoff
`now` for the whole sweep; it removes the blob of every record with
`expiresAt < now` and retains in the index exactly the records with
`expiresAt ≥ now` (a record whose `expiresAt` equals the cutoff is treated
as active and kept, blob untouched), then persists the resulting index.
Stated under unique identifiers, all blob removals succeeding, and the
metadata write succeeding. -/
theorem deleteExpired_partition (fs : FileStorage) (env : ExpireEnv)
    (hnd : (fs.files.map FileMetadata.id).Nodup)
    (hok : ∀ s, env.removeOutcome s = RemoveOutcome.ok)
    (hp : env.persistOk = true) :
    (DeleteExpiredFiles fs env).1.files =
      fs.files.filter (fun m => decide (env.now ≤ m.expiresAt)) ∧
    (DeleteExpiredFiles fs env).1.metadataDisk = (DeleteExpiredFiles fs env).1.files ∧
    (DeleteExpiredFiles fs env).2 = Except.ok () ∧
    (∀ m ∈ fs.files, m.expiresAt < env.now →
      diskGet (DeleteExpiredFiles fs env).1.disk m.id = none) ∧
    (∀ m ∈ fs.files, env.now ≤ m.expiresAt →
      diskGet (DeleteExpiredFiles fs env).1.disk m.id = diskGet fs.disk m.id) := by
  refine ⟨deleteExpired_files_eq fs env, ?_, ?_, ?_, ?_⟩
  · rw [deleteExpired_metadataDisk_eq, hp]
    rfl
  · rw [deleteExpired_result_eq, hp]
    rfl
  · intro m hm hexp
    rw [deleteExpired_disk_eq]
    refine diskGet_removeBlobs_of_ok env.removeOutcome m.id (hok m.id) _ fs.disk
      ⟨m, ?_, rfl⟩
    exact List.mem_filter.mpr ⟨hm, by simpa using hexp⟩
  · intro m hm hact
    rw [deleteExpired_disk_eq]
    apply diskGet_removeBlobs_of_not_mem
    intro m' hm'
    have hm'mem : m' ∈ fs.files := (List.mem_filter.mp hm').1
    have hm'exp : m'.expiresAt < env.now := by
      have := (List.mem_filter.mp hm').2
      simpa using this
    intro heq
    have : m' = m := List.inj_on_of_nodup_map hnd hm'mem hm heq
    subst this
    exact absurd hact (not_le.mpr hm'exp)

/-- Witness for the amended C2 at a concrete two-record store where one
record is expired and one active. -/
theorem deleteExpired_partition_witness :
    (DeleteExpiredFiles sampleStore2 ⟨6, outcomesOk, true⟩).1.files =
      sampleStore2.files.filter (fun m => decide ((6 : Int) ≤ m.expiresAt)) ∧
    (DeleteExpiredFiles sampleStore2 ⟨6, outcomesOk, true⟩).1.metadataDisk =
      (DeleteExpiredFiles sampleStore2 ⟨6, outcomesOk, true⟩).1.files ∧
    (DeleteExpiredFiles sampleStore2 ⟨6, outcomesOk, true⟩).2 = Except.ok () ∧
    (∀ m ∈ sampleStore2.files, m.expiresAt < (6 : Int) →
      diskGet (DeleteExpiredFiles sampleStore2 ⟨6, outcomesOk, true⟩).1.disk m.id =
        none) ∧
    (∀ m ∈ sampleStore2.files, (6 : Int) ≤ m.expiresAt →
      diskGet (DeleteExpiredFiles sampleStore2 ⟨6, outcomesOk, true⟩).1.disk m.id =
        diskGet sampleStore2.disk m.id) :=
  deleteExpired_partition sampleStore2 ⟨6, outcomesOk, true⟩ (by decide)
    (fun s => rfl) (by rfl)

/-- C3 counterexample: a blob-removal failure other than not-exist during
`DeleteFile` DOES cause the operation to fail — the call returns the delete
error and the record stays in the index, contradicting the claim that
removal failures are non-fatal on all destruction paths. -/
theorem deleteFile_removal_error_counterexample :
    (DeleteFile sampleStore "a" ⟨RemoveOutcome.errOther, true⟩).2 =
      Except.error "failed to delete file" ∧
    (DeleteFile sampleStore "a" ⟨RemoveOutcome.errOther, true⟩).1 = sampleStore :=
  ⟨rfl, rfl⟩

/-- C3 (amended): Blob-removal failure handling — in `ClearAllFiles` and
`DeleteExpiredFiles` every removal outcome is ignored (result, retained
index and persisted metadata are independent of the removal outcomes); in
`DeleteFile` a not-exist removal failure is non-fatal and yields the same
result, index and persisted metadata as a successful removal, but any other
removal error aborts the call with a delete error, leaving the store
unchanged. -/
theorem blob_removal_failure_handling (fs : FileStorage) (id : String) (p : Bool)
    (o o' : String → RemoveOutcome) (now : Int) :
    ((DeleteFile fs id ⟨RemoveOutcome.errNotExist, p⟩).2 =
       (DeleteFile fs id ⟨RemoveOutcome.ok, p⟩).2 ∧
     (DeleteFile fs id ⟨RemoveOutcome.errNotExist, p⟩).1.files =
       (DeleteFile fs id ⟨RemoveOutcome.ok, p⟩).1.files ∧
     (DeleteFile fs id ⟨RemoveOutcome.errNotExist, p⟩).1.metadataDisk =
       (DeleteFile fs id ⟨RemoveOutcome.ok, p⟩).1.metadataDisk) ∧
    (id ∈ fs.files.map FileMetadata.id →
      (DeleteFile fs id ⟨RemoveOutcome.errOther, p⟩).2 =
        Except.error "failed to delete file" ∧
      (DeleteFile fs id ⟨RemoveOutcome.errOther, p⟩).1 = fs) ∧
    ((ClearAllFiles fs ⟨o, p⟩).2 = (ClearAllFiles fs ⟨o', p⟩).2 ∧
     (ClearAllFiles fs ⟨o, p⟩).1.files = (ClearAllFiles fs ⟨o', p⟩).1.files ∧
     (ClearAllFiles fs ⟨o, p⟩).1.metadataDisk =
       (ClearAllFiles fs ⟨o', p⟩).1.metadataDisk) ∧
    ((DeleteExpiredFiles fs ⟨now, o, p⟩).2 = (DeleteExpiredFiles fs ⟨now, o', p⟩).2 ∧
     (DeleteExpiredFiles fs ⟨now, o, p⟩).1.files =
       (DeleteExpiredFiles fs ⟨now, o', p⟩).1.files ∧
     (DeleteExpiredFiles fs ⟨now, o, p⟩).1.metadataDisk =
       (DeleteExpiredFiles fs ⟨now, o', p⟩).1.metadataDisk) := by
  refine ⟨?_, ?_, ?_, ?_⟩
  · cases hf : fs.files.find? (fun m => m.id == id) with
    | none => simp [DeleteFile, hf]
    | some m0 =>
        simp only [DeleteFile, hf]
        by_cases hp : p = true <;> simp [hp]
  · intro hmem
    obtain ⟨a, ha, haid⟩ := List.mem_map.mp hmem
    have hsome : ∃ m0, fs.files.find? (fun m => m.id == id) = some m0 := by
      cases hf : fs.files.find? (fun m => m.id == id) with
      | none => exact absurd (by simpa using haid) (List.find?_eq_none.mp hf a ha)
      | some m0 => exact ⟨m0, rfl⟩
    obtain ⟨m0, hf⟩ := hsome
    simp only [DeleteFile, hf]
    simp
  · refine ⟨?_, ?_, ?_⟩
    · rw [clearAll_result_eq, clearAll_result_eq]
    · rw [clearAll_files_eq, clearAll_files_eq]
    · rw [clearAll_metadataDisk_eq, clearAll_metadataDisk_eq]
  · refine ⟨?_, ?_, ?_⟩
    · rw [deleteExpired_result_eq, deleteExpired_result_eq]
    · rw [deleteExpired_files_eq, deleteExpired_files_eq]
    · rw [deleteExpired_metadataDisk_eq, deleteExpired_metadataDisk_eq,
        deleteExpired_files_eq, deleteExpired_files_eq]

/-- Witness for the amended C3 at a concrete store. -/
theorem blob_removal_failure_handling_witness :
    ((DeleteFile sampleStore "a" ⟨RemoveOutcome.errNotExist, true⟩).2 =
       (DeleteFile sampleStore "a" ⟨RemoveOutcome.ok, true⟩).2 ∧
     (DeleteFile sampleStore "a" ⟨RemoveOutcome.errNotExist, true⟩).1.files =
       (DeleteFile sampleStore "a" ⟨RemoveOutcome.ok, true⟩).1.files ∧
     (DeleteFile sampleStore "a" ⟨RemoveOutcome.errNotExist, true⟩).1.metadataDisk =
       (DeleteFile sampleStore "a" ⟨RemoveOutcome.ok, true⟩).1.metadataDisk) ∧
    ("a" ∈ sampleStore.files.map FileMetadata.id →
      (DeleteFile sampleStore "a" ⟨RemoveOutcome.errOther, true⟩).2 =
        Except.error "failed to delete file" ∧
      (DeleteFile sampleStore "a" ⟨RemoveOutcome.errOther, true⟩).1 = sampleStore) ∧
    ((ClearAllFiles sampleStore ⟨outcomesOk, true⟩).2 =
       (ClearAllFiles sampleStore ⟨outcomesOther, true⟩).2 ∧
     (ClearAllFiles sampleStore ⟨outcomesOk, true⟩).1.files =
       (ClearAllFiles sampleStore ⟨outcomesOther, true⟩).1.files ∧
     (ClearAllFiles sampleStore ⟨outcomesOk, true⟩).1.metadataDisk =
       (ClearAllFiles sampleStore ⟨outcomesOther, true⟩).1.metadataDisk) ∧
    ((DeleteExpiredFiles sampleStore ⟨5, outcomesOk, true⟩).2 =
       (DeleteExpiredFiles sampleStore ⟨5, outcomesOther, true⟩).2 ∧
     (DeleteExpiredFiles sampleStore ⟨5, outcomesOk, true⟩).1.files =
       (DeleteExpiredFiles sampleStore ⟨5, outcomesOther, true⟩).1.files ∧
     (DeleteExpiredFiles sampleStore ⟨5, outcomesOk, true⟩).1.metadataDisk =
       (DeleteExpiredFiles sampleStore ⟨5, outcomesOther, true⟩).1.metadataDisk) :=
  blob_removal_failure_handling sampleStore "a" true outcomesOk outcomesOther 5

end SyncIt
